import Mathlib

/-!
Shallow embedding of `src/example/serve.py` (n8n-Server repository).

The program is a small HTTP server with two pieces of behaviour:

* `load_env_file` reads `webapp.env`, a flat `KEY=VALUE` text file, and
  produces a string-to-string mapping; if the file is absent it prints a
  warning and returns a hardcoded default mapping.
* `ConfigInjectHandler.do_GET` special-cases the path `/config.js`,
  rendering the mapping as a JavaScript object literal; every other path is
  delegated to static file serving.  `end_headers` adds three CORS headers
  to every response.

The environment file is modelled as `Option (List String)`: `none` means
the file does not exist, `some lines` gives its lines (Python iterates a
file line by line; each line is stripped, so modelling lines without the
trailing newline is faithful).  Python strings are Lean `String`s; the
Python dict built by the loader is an association list with
insert-overwrite and first-match lookup, which matches dict semantics for
the operations the program uses (`d[k] = v` and `d.get(k, default)`).
-/

/-- The whitespace test used by Python `str.strip()` for ASCII input:
space, tab, newline, carriage return, vertical tab, form feed. -/
def pyWs (c : Char) : Bool :=
  c == ' ' || c == '\t' || c == '\n' || c == '\r' || c == '\x0b' || c == '\x0c'

/-- `str.strip()` on a list of characters: drop whitespace from both ends. -/
def stripL (l : List Char) : List Char :=
  ((l.dropWhile pyWs).reverse.dropWhile pyWs).reverse

/-- `str.strip()` on a `String`. -/
def pyStrip (s : String) : String :=
  String.mk (stripL s.data)

/-- `line.split('=', 1)`: split at the first `'='`; `none` when the line
contains no `'='` (in Python that case is guarded by `if '=' in line`). -/
def splitEqL : List Char → Option (List Char × List Char)
  | [] => none
  | c :: rest =>
    if c = '=' then some ([], rest)
    else
      match splitEqL rest with
      | some kv => some (c :: kv.1, kv.2)
      | none => none

/-- Python-dict insertion `d[k] = v` on an association list: overwrite the
existing entry for `k` in place, else append. -/
def dictInsert (d : List (String × String)) (k v : String) :
    List (String × String) :=
  match d with
  | [] => [(k, v)]
  | p :: rest => if p.1 = k then (k, v) :: rest else p :: dictInsert rest k v

/-- Python-dict key lookup (first matching entry). -/
def dictLookup (d : List (String × String)) (k : String) : Option String :=
  match d with
  | [] => none
  | p :: rest => if p.1 = k then some p.2 else dictLookup rest k

/-- Python `d.get(k, default)`. -/
def dictGet (d : List (String × String)) (k dflt : String) : String :=
  match dictLookup d k with
  | some v => v
  | none => dflt

/-- The body of the loader loop for one line of the file
(`serve.py` lines 20-25): strip the line; skip it when empty or starting
with `'#'`; otherwise, when it contains `'='`, split at the first `'='`,
strip both sides and store the pair in the dict. -/
def processLineL (env : List (String × String)) (raw : List Char) :
    List (String × String) :=
  match stripL raw with
  | [] => env
  | c :: cs =>
    if c = '#' then env
    else if '=' ∈ (c :: cs) then
      match splitEqL (c :: cs) with
      | some kv =>
          dictInsert env (String.mk (stripL kv.1)) (String.mk (stripL kv.2))
      | none => env
    else env

/-- Result of `load_env_file`: the mapping, plus whether the warning notice
for a missing file was printed. -/
structure LoadResult where
  env : List (String × String)
  warned : Bool
deriving DecidableEq

/-- `load_env_file` (`serve.py` lines 14-35).  When the file exists its
lines are folded through the loop body starting from the empty dict; when
it does not, the warning is printed and the hardcoded default mapping is
returned. -/
def load_env_file (file : Option (List String)) : LoadResult :=
  match file with
  | some lines => ⟨lines.foldl (fun e l => processLineL e l.data) [], false⟩
  | none =>
      ⟨[("N8N_API_BASE_URL", "http://localhost:5678/api/v1"),
        ("N8N_API_KEY", "your-api-key-here"),
        ("REFRESH_INTERVAL", "30000"),
        ("DEBUG_MODE", "false")], true⟩

/-- One `NAME: 'value'` fragment of the generated object literal. -/
def renderKV (name val : String) : String :=
  name ++ ": \x27" ++ val ++ "\x27"

/-- The f-string of `do_GET` (`serve.py` lines 54-63): the generated
`config.js` payload.  Each of the four known keys is looked up with
`env_vars.get(key, default)`; the braces of the object literal are the
`\x7b`/`\x7d` characters. -/
def renderConfig (env : List (String × String)) : String :=
  "// Auto-generated configuration from webapp.env\n// This file is generated at server startup\n\nwindow.ENV = \x7b\n    " ++
  renderKV "N8N_API_BASE_URL"
    (dictGet env "N8N_API_BASE_URL" "http://localhost:5678/api/v1") ++
  ",\n    " ++
  renderKV "N8N_API_KEY" (dictGet env "N8N_API_KEY" "your-api-key-here") ++
  ",\n    " ++
  renderKV "REFRESH_INTERVAL" (dictGet env "REFRESH_INTERVAL" "30000") ++
  ",\n    " ++
  renderKV "DEBUG_MODE" (dictGet env "DEBUG_MODE" "false") ++
  "\n\x7d;\n"

/-- An HTTP response as the handler produces it: status code, headers in
send order, body. -/
structure Response where
  status : Nat
  headers : List (String × String)
  body : String
deriving DecidableEq

/-- The three headers `end_headers` adds to every response
(`serve.py` lines 42-47). -/
def corsHeaders : List (String × String) :=
  [("Access-Control-Allow-Origin", "*"),
   ("Access-Control-Allow-Methods", "GET, POST, OPTIONS"),
   ("Access-Control-Allow-Headers", "Content-Type")]

/-- `ConfigInjectHandler.do_GET` (`serve.py` lines 49-72).  The request is
described by its path; `file` is the state of `webapp.env` at the time the
request is handled and `fs` maps the paths of the existing static files to
their contents.  On `/config.js` the handler loads the environment file,
renders the payload and replies 200 with content type
`application/javascript` and `Content-Length` equal to the byte length of
the UTF-8 encoding of the payload (`len(config_content.encode())`).  Any
other path is delegated to `SimpleHTTPRequestHandler.do_GET`, which serves
the file bytes or replies 404; either way `end_headers` runs, so the CORS
headers are appended after the branch-specific headers. -/
def do_GET (file : Option (List String)) (fs : List (String × String))
    (path : String) : Response :=
  if path = "/config.js" then
    let payload := renderConfig (load_env_file file).env
    { status := 200
      headers := [("Content-type", "application/javascript"),
                  ("Content-Length", toString payload.utf8ByteSize)] ++
                 corsHeaders
      body := payload }
  else
    match dictLookup fs path with
    | some content => { status := 200, headers := corsHeaders, body := content }
    | none => { status := 404, headers := corsHeaders, body := "" }

/-- A run of the server: each incoming request is handled against the file
state current at that moment (`load_env_file` is called inside `do_GET`,
so every `/config.js` request re-reads the file). -/
def serveRun (reqs : List (Option (List String) × List (String × String) × String)) :
    List Response :=
  reqs.map (fun r => do_GET r.1 r.2.1 r.2.2)

/-- The four known configuration keys, in the order the payload renders
them. -/
def knownKeys : List String :=
  ["N8N_API_BASE_URL", "N8N_API_KEY", "REFRESH_INTERVAL", "DEBUG_MODE"]

/-- The pair a single line contributes to the mapping, if any: the loop
body of the loader factored as a per-line parse (strip the line, skip
blanks and comments, split at the first equals sign, strip both sides). -/
def lineKV (raw : List Char) : Option (String × String) :=
  match stripL raw with
  | [] => none
  | c :: cs =>
    if c = '#' then none
    else
      match splitEqL (c :: cs) with
      | some kv => some (String.mk (stripL kv.1), String.mk (stripL kv.2))
      | none => none

/-- The value contributed for key `k` by the last contributing line of the
file, if any. -/
def lastContrib (lines : List String) (k : String) : Option String :=
  lines.foldl
    (fun acc l =>
      match lineKV l.data with
      | some kv => if kv.1 = k then some kv.2 else acc
      | none => acc) none

/-- A well-formed key: already stripped, nonempty, not a comment starter,
containing no equals sign. -/
def wfKey (k : String) : Prop :=
  stripL k.data = k.data ∧ k.data ≠ [] ∧ k.data.head? ≠ some '#' ∧ '=' ∉ k.data

/-- A well-formed `KEY=VALUE` pair: well-formed key, already-stripped
value. -/
def wfPair (p : String × String) : Prop :=
  wfKey p.1 ∧ stripL p.2.data = p.2.data

/-- The environment file whose lines are the given pairs, each written
`KEY=VALUE`. -/
def fileOf (pairs : List (String × String)) : List String :=
  pairs.map (fun p => p.1 ++ "=" ++ p.2)

/-- The value assigned by the last pair with key `k`, if any. -/
def lastPairVal (pairs : List (String × String)) (k : String) :
    Option String :=
  pairs.foldl (fun acc p => if p.1 = k then some p.2 else acc) none

/-- `pat` occurs contiguously inside `s`. -/
def strContains (pat s : String) : Prop :=
  ∃ a b : String, a ++ pat ++ b = s

/-- The hardcoded default mapping exactly as the specification lists it
(sections 2, 3 and 4.1 of the spec). -/
def specDefaultMapping : List (String × String) :=
  [("N8N_API_BASE_URL", "http://localhost:5678/api/v1"),
   ("N8N_API_KEY", "your-api-key-here"),
   ("REFRESH_INTERVAL", "30000"),
   ("DEBUG_MODE", "false")]


/-! ### Lemmas about the embedded primitives -/

theorem splitEqL_none_of_not_mem (l : List Char) (h : '=' ∉ l) :
    splitEqL l = none := by
  induction l with
  | nil => rfl
  | cons c rest ih =>
    have hc : ¬ c = '=' := by
      intro hh
      exact h (by rw [hh]; exact List.mem_cons_self _ _)
    have hr : '=' ∉ rest := fun hh => h (List.mem_cons_of_mem c hh)
    simp [splitEqL, hc, ih hr]

theorem splitEqL_append (k v : List Char) (hk : '=' ∉ k) :
    splitEqL (k ++ '=' :: v) = some (k, v) := by
  induction k with
  | nil => simp [splitEqL]
  | cons c rest ih =>
    have hc : ¬ c = '=' := by
      intro hh
      exact hk (by rw [hh]; exact List.mem_cons_self _ _)
    have hr : '=' ∉ rest := fun hh => hk (List.mem_cons_of_mem c hh)
    simp [splitEqL, hc, ih hr]

theorem dictLookup_dictInsert (d : List (String × String)) (k v k' : String) :
    dictLookup (dictInsert d k v) k' =
      if k = k' then some v else dictLookup d k' := by
  induction d with
  | nil => simp [dictInsert, dictLookup]
  | cons p rest ih =>
    unfold dictInsert
    by_cases hp : p.1 = k
    · rw [if_pos hp]
      by_cases hk : k = k'
      · simp [dictLookup, hk]
      · have hp2 : ¬ p.1 = k' := by rw [hp]; exact hk
        simp [dictLookup, hk, hp2]
    · rw [if_neg hp]
      by_cases hpk : p.1 = k'
      · have hk : ¬ k = k' := by
          intro hh
          exact hp (by rw [hpk, hh])
        simp [dictLookup, hpk, hk]
      · simp [dictLookup, hpk, ih]

theorem dictGet_eq_of_lookup (d : List (String × String)) (k v dflt : String)
    (h : dictLookup d k = some v) : dictGet d k dflt = v := by
  simp [dictGet, h]

theorem mem_of_mem_stripL (c : Char) (l : List Char) (h : c ∈ stripL l) :
    c ∈ l := by
  unfold stripL at h
  rw [List.mem_reverse] at h
  have h2 := (List.dropWhile_sublist (p := pyWs)
    (l := (l.dropWhile pyWs).reverse)).subset h
  rw [List.mem_reverse] at h2
  exact (List.dropWhile_sublist (p := pyWs) (l := l)).subset h2

theorem head_false_of_dropWhile_eq_self (p : Char → Bool) (c : Char)
    (t : List Char) (h : (c :: t).dropWhile p = c :: t) : p c = false := by
  cases hp : p c with
  | false => rfl
  | true =>
    exfalso
    rw [List.dropWhile_cons, if_pos hp] at h
    have hle := (List.dropWhile_sublist (p := p) (l := t)).length_le
    rw [h] at hle
    simp at hle

theorem stripL_of_ends (l : List Char)
    (h1 : l.dropWhile pyWs = l) (h2 : l.reverse.dropWhile pyWs = l.reverse) :
    stripL l = l := by
  unfold stripL
  rw [h1, h2, List.reverse_reverse]

theorem dropWhile_of_stripL_eq_self (l : List Char) (h : stripL l = l) :
    l.dropWhile pyWs = l ∧ l.reverse.dropWhile pyWs = l.reverse := by
  have hsub1 : (l.dropWhile pyWs).Sublist l := List.dropWhile_sublist pyWs
  have hlen1 : ((l.dropWhile pyWs).reverse.dropWhile pyWs).length ≤
      (l.dropWhile pyWs).length := by
    have := (List.dropWhile_sublist (p := pyWs)
      (l := (l.dropWhile pyWs).reverse)).length_le
    simpa using this
  have hlenl : l.length ≤ (l.dropWhile pyWs).length := by
    conv_lhs => rw [← h]
    unfold stripL
    simpa using hlen1
  have h1 : l.dropWhile pyWs = l :=
    hsub1.eq_of_length (Nat.le_antisymm hsub1.length_le hlenl)
  refine ⟨h1, ?_⟩
  have h3 : (l.reverse.dropWhile pyWs).reverse = l := by
    have := h
    unfold stripL at this
    rwa [h1] at this
  have := congrArg List.reverse h3
  rwa [List.reverse_reverse] at this

theorem dropWhile_eq_self_of_head? (l : List Char)
    (h : ∀ c, l.head? = some c → pyWs c = false) :
    l.dropWhile pyWs = l := by
  cases l with
  | nil => rfl
  | cons c t => exact List.dropWhile_cons_of_neg (by simp [h c rfl])

theorem stripL_keyval (ck : Char) (tk v : List Char)
    (hck : pyWs ck = false) (hv : stripL v = v) :
    stripL ((ck :: tk) ++ '=' :: v) = (ck :: tk) ++ '=' :: v := by
  apply stripL_of_ends
  · rw [List.cons_append]
    exact List.dropWhile_cons_of_neg (by simp [hck])
  · apply dropWhile_eq_self_of_head?
    intro c hc
    have hrev : ((ck :: tk) ++ '=' :: v).reverse =
        v.reverse ++ '=' :: (ck :: tk).reverse := by
      simp
    rw [hrev] at hc
    rcases hrv : v.reverse with _ | ⟨d, t⟩
    · rw [hrv] at hc
      simp at hc
      rw [← hc]
      decide
    · have hd : pyWs d = false := by
        have h2 := (dropWhile_of_stripL_eq_self v hv).2
        rw [hrv] at h2
        exact head_false_of_dropWhile_eq_self pyWs d t h2
      rw [hrv] at hc
      simp at hc
      rw [← hc]
      exact hd

theorem lineKV_cons (raw : List Char) (c : Char) (cs : List Char)
    (h : stripL raw = c :: cs) :
    lineKV raw =
      if c = '#' then none
      else
        match splitEqL (c :: cs) with
        | some kv => some (String.mk (stripL kv.1), String.mk (stripL kv.2))
        | none => none := by
  unfold lineKV
  rw [h]

theorem lineKV_of_wfPair (p : String × String) (h : wfPair p) :
    lineKV (p.1 ++ "=" ++ p.2).data = some p := by
  obtain ⟨⟨hstrip, hne, hhash, hmem⟩, hvstrip⟩ := h
  have heqd : ("=" : String).data = ['='] := rfl
  have hdata : (p.1 ++ "=" ++ p.2).data = p.1.data ++ '=' :: p.2.data := by
    rw [String.data_append, String.data_append, heqd, List.append_assoc]
    rfl
  rcases hk : p.1.data with _ | ⟨ck, tk⟩
  · exact absurd hk hne
  · have hck : pyWs ck = false := by
      have h1 := (dropWhile_of_stripL_eq_self p.1.data hstrip).1
      rw [hk] at h1
      exact head_false_of_dropWhile_eq_self pyWs ck tk h1
    have hckh : ¬ ck = '#' := by
      intro hh
      apply hhash
      rw [hk, hh]
      rfl
    have hvs : stripL p.2.data = p.2.data := hvstrip
    have hline : stripL ((ck :: tk) ++ '=' :: p.2.data) =
        (ck :: tk) ++ '=' :: p.2.data := stripL_keyval ck tk p.2.data hck hvs
    have hsplit : splitEqL (ck :: (tk ++ '=' :: p.2.data)) =
        some (ck :: tk, p.2.data) := by
      have hs : splitEqL ((ck :: tk) ++ '=' :: p.2.data) =
          some (ck :: tk, p.2.data) := by
        apply splitEqL_append
        rw [← hk]
        exact hmem
      exact hs
    have hred := lineKV_cons (p.1 ++ "=" ++ p.2).data ck
      (tk ++ '=' :: p.2.data) (by rw [hdata, hk]; exact hline)
    rw [hred, if_neg hckh, hsplit, ← hk]
    show some (String.mk (stripL p.1.data), String.mk (stripL p.2.data)) = some p
    rw [hstrip, hvs]

theorem processLineL_eq_lineKV (env : List (String × String)) (raw : List Char) :
    processLineL env raw =
      match lineKV raw with
      | some kv => dictInsert env kv.1 kv.2
      | none => env := by
  unfold processLineL lineKV
  cases hs : stripL raw with
  | nil => rfl
  | cons c cs =>
    by_cases hc : c = '#'
    · simp [hc]
    · cases hsp : splitEqL (c :: cs) with
      | some kv =>
        have hm : '=' ∈ (c :: cs) := by
          by_contra hmm
          rw [splitEqL_none_of_not_mem _ hmm] at hsp
          cases hsp
        simp [hc, hm, hsp]
      | none =>
        by_cases hm : '=' ∈ (c :: cs) <;> simp [hc, hm, hsp]

theorem dictLookup_foldl (lines : List String) :
    ∀ (env : List (String × String)) (k : String),
      dictLookup (lines.foldl (fun e l => processLineL e l.data) env) k =
        lines.foldl
          (fun acc l =>
            match lineKV l.data with
            | some kv => if kv.1 = k then some kv.2 else acc
            | none => acc) (dictLookup env k) := by
  induction lines with
  | nil =>
    intro env k
    rfl
  | cons x xs ih =>
    intro env k
    simp only [List.foldl_cons]
    rw [ih]
    congr 1
    rw [processLineL_eq_lineKV]
    cases h : lineKV x.data with
    | some kv => exact dictLookup_dictInsert env kv.1 kv.2 k
    | none => rfl

theorem load_lookup_eq_lastContrib (lines : List String) (k : String) :
    dictLookup (load_env_file (some lines)).env k = lastContrib lines k := by
  unfold load_env_file lastContrib
  rw [dictLookup_foldl]
  rfl

theorem lastContrib_fileOf (pairs : List (String × String)) (k : String) :
    (∀ p ∈ pairs, wfPair p) →
    lastContrib (fileOf pairs) k = lastPairVal pairs k := by
  unfold lastContrib lastPairVal fileOf
  suffices hgen : ∀ acc : Option String, (∀ p ∈ pairs, wfPair p) →
      (pairs.map (fun p => p.1 ++ "=" ++ p.2)).foldl
        (fun acc l =>
          match lineKV l.data with
          | some kv => if kv.1 = k then some kv.2 else acc
          | none => acc) acc =
      pairs.foldl (fun acc p => if p.1 = k then some p.2 else acc) acc by
    intro hwf
    exact hgen none hwf
  induction pairs with
  | nil =>
    intro acc hwf
    rfl
  | cons p rest ih =>
    intro acc hwf
    simp only [List.map_cons, List.foldl_cons]
    rw [lineKV_of_wfPair p (hwf p (List.mem_cons_self _ _))]
    exact ih _ (fun q hq => hwf q (List.mem_cons_of_mem _ hq))

theorem load_lookup_fileOf (pairs : List (String × String)) (k : String)
    (hwf : ∀ p ∈ pairs, wfPair p) :
    dictLookup (load_env_file (some (fileOf pairs))).env k =
      lastPairVal pairs k := by
  rw [load_lookup_eq_lastContrib, lastContrib_fileOf pairs k hwf]

/-- C2: a line that is non-empty after stripping, does not start with
`'#'` and contains an `'='` is split at the first `'='` only; the key is
the left part stripped of surrounding whitespace, the value the right part
stripped of surrounding whitespace, and further `'='` characters stay in
the value (they sit in `vc`, which is unconstrained). -/
theorem c2_split_on_first_equals (env : List (String × String)) (raw : String)
    (kc vc : List Char) (hsplit : stripL raw.data = kc ++ '=' :: vc)
    (hkc : '=' ∉ kc) (hhash : (kc ++ '=' :: vc).head? ≠ some '#') :
    processLineL env raw.data =
      dictInsert env (String.mk (stripL kc)) (String.mk (stripL vc)) := by
  rw [processLineL_eq_lineKV]
  cases kc with
  | nil =>
    have hred := lineKV_cons raw.data '=' vc (by rw [hsplit]; rfl)
    rw [hred, if_neg (by decide)]
    have hs : splitEqL ('=' :: vc) = some ([], vc) := by simp [splitEqL]
    rw [hs]
  | cons c t =>
    have hc : ¬ c = '#' := by
      intro hh
      subst hh
      exact hhash rfl
    have hred := lineKV_cons raw.data c (t ++ '=' :: vc) (by rw [hsplit]; rfl)
    rw [hred, if_neg hc]
    have hs : splitEqL (c :: (t ++ '=' :: vc)) = some (c :: t, vc) :=
      splitEqL_append (c :: t) vc hkc
    rw [hs]

theorem c2_split_on_first_equals_witness :
    processLineL [] (" FOO = bar=baz " : String).data = [("FOO", "bar=baz")] := by
  have h := c2_split_on_first_equals [] " FOO = bar=baz "
    ['F', 'O', 'O', ' '] [' ', 'b', 'a', 'r', '=', 'b', 'a', 'z']
    (by decide) (by decide) (by decide)
  rw [h]
  decide

/-- C3: a line that is empty or whitespace-only after stripping, or whose
stripped form begins with `'#'` (even if it contains `'='`), or that
contains no `'='` at all, contributes nothing to the mapping; processing
it is total and returns the mapping unchanged, so loading never fails. -/
theorem c3_ignored_lines (env : List (String × String)) (raw : String)
    (h : stripL raw.data = [] ∨ (stripL raw.data).head? = some '#' ∨
      '=' ∉ raw.data) :
    processLineL env raw.data = env := by
  rw [processLineL_eq_lineKV]
  have hnone : lineKV raw.data = none := by
    rcases h with h | h | h
    · unfold lineKV
      rw [h]
    · cases hs : stripL raw.data with
      | nil =>
        unfold lineKV
        rw [hs]
      | cons c cs =>
        rw [hs] at h
        simp at h
        rw [lineKV_cons raw.data c cs hs, if_pos h]
    · have hm : '=' ∉ stripL raw.data := fun hmem => h (mem_of_mem_stripL _ _ hmem)
      cases hs : stripL raw.data with
      | nil =>
        unfold lineKV
        rw [hs]
      | cons c cs =>
        rw [hs] at hm
        rw [lineKV_cons raw.data c cs hs]
        by_cases hc : c = '#'
        · rw [if_pos hc]
        · rw [if_neg hc, splitEqL_none_of_not_mem _ hm]
  rw [hnone]

theorem c3_ignored_lines_witness :
    processLineL [("X", "1")] ("# a=b" : String).data = [("X", "1")] :=
  c3_ignored_lines [("X", "1")] "# a=b" (Or.inr (Or.inl (by decide)))

/-- C10: when the same key is contributed by several lines of an existing
environment file, the loaded mapping holds the value of the last
contributing line (`lastContrib` folds left over the lines, overwriting);
and the line `KEY=` maps `KEY` to the empty string. -/
theorem c10_last_line_wins :
    (∀ (lines : List String) (k : String),
      dictLookup (load_env_file (some lines)).env k = lastContrib lines k) ∧
    dictLookup (load_env_file (some ["KEY="])).env "KEY" = some "" := by
  exact ⟨load_lookup_eq_lastContrib, by decide⟩

theorem dictGet_dictInsert_ne (d : List (String × String)) (k v k' dflt : String)
    (h : ¬ k = k') : dictGet (dictInsert d k v) k' dflt = dictGet d k' dflt := by
  unfold dictGet
  rw [dictLookup_dictInsert, if_neg h]

theorem strContains_of_parts (pat a b s : String) (h : a ++ (pat ++ b) = s) :
    strContains pat s :=
  ⟨a, b, by rw [String.append_assoc]; exact h⟩

theorem renderConfig_contains_baseurl (env : List (String × String))
    (v : String) (h : dictLookup env "N8N_API_BASE_URL" = some v) :
    strContains (renderKV "N8N_API_BASE_URL" v) (renderConfig env) := by
  apply strContains_of_parts _
    "// Auto-generated configuration from webapp.env\n// This file is generated at server startup\n\nwindow.ENV = \x7b\n    "
    (",\n    " ++ renderKV "N8N_API_KEY" (dictGet env "N8N_API_KEY" "your-api-key-here") ++
     ",\n    " ++ renderKV "REFRESH_INTERVAL" (dictGet env "REFRESH_INTERVAL" "30000") ++
     ",\n    " ++ renderKV "DEBUG_MODE" (dictGet env "DEBUG_MODE" "false") ++
     "\n\x7d;\n")
  rw [← dictGet_eq_of_lookup env "N8N_API_BASE_URL" v "http://localhost:5678/api/v1" h]
  simp only [renderConfig, String.append_assoc]

theorem renderConfig_contains_apikey (env : List (String × String))
    (v : String) (h : dictLookup env "N8N_API_KEY" = some v) :
    strContains (renderKV "N8N_API_KEY" v) (renderConfig env) := by
  apply strContains_of_parts _
    ("// Auto-generated configuration from webapp.env\n// This file is generated at server startup\n\nwindow.ENV = \x7b\n    " ++
     renderKV "N8N_API_BASE_URL" (dictGet env "N8N_API_BASE_URL" "http://localhost:5678/api/v1") ++
     ",\n    ")
    (",\n    " ++ renderKV "REFRESH_INTERVAL" (dictGet env "REFRESH_INTERVAL" "30000") ++
     ",\n    " ++ renderKV "DEBUG_MODE" (dictGet env "DEBUG_MODE" "false") ++
     "\n\x7d;\n")
  rw [← dictGet_eq_of_lookup env "N8N_API_KEY" v "your-api-key-here" h]
  simp only [renderConfig, String.append_assoc]

theorem renderConfig_contains_interval (env : List (String × String))
    (v : String) (h : dictLookup env "REFRESH_INTERVAL" = some v) :
    strContains (renderKV "REFRESH_INTERVAL" v) (renderConfig env) := by
  apply strContains_of_parts _
    ("// Auto-generated configuration from webapp.env\n// This file is generated at server startup\n\nwindow.ENV = \x7b\n    " ++
     renderKV "N8N_API_BASE_URL" (dictGet env "N8N_API_BASE_URL" "http://localhost:5678/api/v1") ++
     ",\n    " ++ renderKV "N8N_API_KEY" (dictGet env "N8N_API_KEY" "your-api-key-here") ++
     ",\n    ")
    (",\n    " ++ renderKV "DEBUG_MODE" (dictGet env "DEBUG_MODE" "false") ++
     "\n\x7d;\n")
  rw [← dictGet_eq_of_lookup env "REFRESH_INTERVAL" v "30000" h]
  simp only [renderConfig, String.append_assoc]

theorem renderConfig_contains_debug (env : List (String × String))
    (v : String) (h : dictLookup env "DEBUG_MODE" = some v) :
    strContains (renderKV "DEBUG_MODE" v) (renderConfig env) := by
  apply strContains_of_parts _
    ("// Auto-generated configuration from webapp.env\n// This file is generated at server startup\n\nwindow.ENV = \x7b\n    " ++
     renderKV "N8N_API_BASE_URL" (dictGet env "N8N_API_BASE_URL" "http://localhost:5678/api/v1") ++
     ",\n    " ++ renderKV "N8N_API_KEY" (dictGet env "N8N_API_KEY" "your-api-key-here") ++
     ",\n    " ++ renderKV "REFRESH_INTERVAL" (dictGet env "REFRESH_INTERVAL" "30000") ++
     ",\n    ")
    "\n\x7d;\n"
  rw [← dictGet_eq_of_lookup env "DEBUG_MODE" v "false" h]
  simp only [renderConfig, String.append_assoc]

/-- C1: for every well-formed `KEY=VALUE` environment file, loading then
rendering produces a payload that contains, for each of the four known
keys bound in the file, the literal value from the file as that key's
single-quoted value (`renderKV k v` is the fragment `k: ` followed by `v`
between single quotes); and the renderer ignores every key other than the
four known ones: adding a binding for an unrecognized key leaves the
rendered payload unchanged, so its value is never substituted into the
payload. -/
theorem c1_payload_literal_values_unknown_ignored
    (pairs : List (String × String)) (hwf : ∀ p ∈ pairs, wfPair p) :
    (∀ k v, k ∈ knownKeys → lastPairVal pairs k = some v →
      strContains (renderKV k v)
        (renderConfig (load_env_file (some (fileOf pairs))).env)) ∧
    (∀ (env : List (String × String)) (k v : String), k ∉ knownKeys →
      renderConfig (dictInsert env k v) = renderConfig env) := by
  constructor
  · intro k v hk hlast
    have hlook : dictLookup (load_env_file (some (fileOf pairs))).env k =
        some v := by
      rw [load_lookup_fileOf pairs k hwf, hlast]
    simp only [knownKeys, List.mem_cons, List.not_mem_nil, or_false] at hk
    rcases hk with hk | hk | hk | hk
    · subst hk
      exact renderConfig_contains_baseurl _ v hlook
    · subst hk
      exact renderConfig_contains_apikey _ v hlook
    · subst hk
      exact renderConfig_contains_interval _ v hlook
    · subst hk
      exact renderConfig_contains_debug _ v hlook
  · intro env k v hk
    simp only [knownKeys, List.mem_cons, List.not_mem_nil, or_false,
      not_or] at hk
    obtain ⟨h1, h2, h3, h4⟩ := hk
    unfold renderConfig
    rw [dictGet_dictInsert_ne _ _ _ _ _ h1, dictGet_dictInsert_ne _ _ _ _ _ h2,
        dictGet_dictInsert_ne _ _ _ _ _ h3, dictGet_dictInsert_ne _ _ _ _ _ h4]

theorem c1_payload_literal_values_unknown_ignored_witness :
    strContains (renderKV "N8N_API_KEY" "abc123")
      (renderConfig
        (load_env_file (some (fileOf [("N8N_API_KEY", "abc123")]))).env) :=
  (c1_payload_literal_values_unknown_ignored [("N8N_API_KEY", "abc123")]
    (by
      intro p hp
      simp only [List.mem_singleton] at hp
      subst hp
      exact ⟨⟨by decide, by decide, by decide, by decide⟩, by decide⟩)).1
    "N8N_API_KEY" "abc123" (by decide) (by decide)

/-- C4: when the environment file does not exist, the loader returns
exactly the fixed default mapping with its four listed entries and prints
the warning notice (modelled by `warned = true`); the loader is a total
function of the file state, so for a missing file no other result is
possible and loading never fails. -/
theorem c4_missing_file_defaults :
    load_env_file none =
      ⟨[("N8N_API_BASE_URL", "http://localhost:5678/api/v1"),
        ("N8N_API_KEY", "your-api-key-here"),
        ("REFRESH_INTERVAL", "30000"),
        ("DEBUG_MODE", "false")], true⟩ ∧
    (load_env_file none).env.length = 4 :=
  ⟨rfl, rfl⟩

/-- C5: the payload rendered when the environment file is absent equals,
byte for byte, the payload rendered directly from the hardcoded default
mapping as the specification lists it; and that payload equals the one
rendered from the empty mapping, where every known key falls back to the
renderer's per-key default — so the renderer's fallback defaults agree
with the default mapping's values on all four known keys. -/
theorem c5_absent_file_equals_default_render :
    renderConfig (load_env_file none).env = renderConfig specDefaultMapping ∧
    renderConfig specDefaultMapping = renderConfig [] :=
  ⟨rfl, rfl⟩

/-- C6: for the environment file with lines `N8N_API_KEY=abc123`,
`# comment`, `REFRESH_INTERVAL=5000`, the loaded-then-rendered
configuration gives `abc123` for `N8N_API_KEY`, `5000` for
`REFRESH_INTERVAL`, and the defaults `http://localhost:5678/api/v1` and
`false` for `N8N_API_BASE_URL` and `DEBUG_MODE`, as shown by the four
rendered lookups and the full payload. -/
theorem c6_concrete_scenario :
    dictGet (load_env_file (some ["N8N_API_KEY=abc123", "# comment",
        "REFRESH_INTERVAL=5000"])).env "N8N_API_KEY" "your-api-key-here" =
      "abc123" ∧
    dictGet (load_env_file (some ["N8N_API_KEY=abc123", "# comment",
        "REFRESH_INTERVAL=5000"])).env "REFRESH_INTERVAL" "30000" = "5000" ∧
    dictGet (load_env_file (some ["N8N_API_KEY=abc123", "# comment",
        "REFRESH_INTERVAL=5000"])).env "N8N_API_BASE_URL"
        "http://localhost:5678/api/v1" = "http://localhost:5678/api/v1" ∧
    dictGet (load_env_file (some ["N8N_API_KEY=abc123", "# comment",
        "REFRESH_INTERVAL=5000"])).env "DEBUG_MODE" "false" = "false" ∧
    renderConfig (load_env_file (some ["N8N_API_KEY=abc123", "# comment",
        "REFRESH_INTERVAL=5000"])).env =
      "// Auto-generated configuration from webapp.env\n// This file is generated at server startup\n\nwindow.ENV = \x7b\n    N8N_API_BASE_URL: \x27http://localhost:5678/api/v1\x27,\n    N8N_API_KEY: \x27abc123\x27,\n    REFRESH_INTERVAL: \x275000\x27,\n    DEBUG_MODE: \x27false\x27\n\x7d;\n" := by
  set_option maxRecDepth 40000 in decide

/-- C7: the configuration is re-read on every `/config.js` request: in a
run of two requests the body of each response is computed from the file
state current at that request, so when the two file states render
differently the two responses differ — edits take effect with no
restart. -/
theorem c7_reload_every_request (f1 f2 : Option (List String))
    (fs1 fs2 : List (String × String)) :
    (serveRun [(f1, fs1, "/config.js"), (f2, fs2, "/config.js")]).map
        Response.body =
      [renderConfig (load_env_file f1).env,
       renderConfig (load_env_file f2).env] ∧
    (renderConfig (load_env_file f1).env ≠
        renderConfig (load_env_file f2).env →
      (do_GET f1 fs1 "/config.js").body ≠ (do_GET f2 fs2 "/config.js").body) := by
  have hbody : ∀ (f : Option (List String)) (fs : List (String × String)),
      (do_GET f fs "/config.js").body = renderConfig (load_env_file f).env := by
    intro f fs
    unfold do_GET
    rw [if_pos rfl]
  constructor
  · simp [serveRun, hbody]
  · intro hne
    rw [hbody, hbody]
    exact hne

theorem c7_reload_every_request_witness :
    (do_GET (some ["DEBUG_MODE=true"]) [] "/config.js").body ≠
      (do_GET none [] "/config.js").body :=
  (c7_reload_every_request (some ["DEBUG_MODE=true"]) none [] []).2
    (by set_option maxRecDepth 40000 in decide)

/-- C8: every GET request for the exact path `/config.js` is answered with
status 200, content type `application/javascript`, the rendered payload of
the freshly loaded configuration as body, and a `Content-Length` header
equal to the byte length of the UTF-8 encoding of that payload. -/
theorem c8_config_js_response (file : Option (List String))
    (fs : List (String × String)) :
    (do_GET file fs "/config.js").status = 200 ∧
    ("Content-type", "application/javascript") ∈
      (do_GET file fs "/config.js").headers ∧
    (do_GET file fs "/config.js").body =
      renderConfig (load_env_file file).env ∧
    ("Content-Length",
      toString (renderConfig (load_env_file file).env).utf8ByteSize) ∈
      (do_GET file fs "/config.js").headers := by
  unfold do_GET
  rw [if_pos rfl]
  refine ⟨rfl, ?_, rfl, ?_⟩ <;> simp [corsHeaders]

/-- C9: every response the handler produces — on the `/config.js` branch
and on the static branch, whether the file exists (200) or not (404) —
carries the three CORS headers added by `end_headers`. -/
theorem c9_cors_on_every_response (file : Option (List String))
    (fs : List (String × String)) (path : String) :
    ("Access-Control-Allow-Origin", "*") ∈ (do_GET file fs path).headers ∧
    ("Access-Control-Allow-Methods", "GET, POST, OPTIONS") ∈
      (do_GET file fs path).headers ∧
    ("Access-Control-Allow-Headers", "Content-Type") ∈
      (do_GET file fs path).headers := by
  unfold do_GET
  by_cases hp : path = "/config.js"
  · rw [if_pos hp]
    refine ⟨?_, ?_, ?_⟩ <;> simp [corsHeaders]
  · rw [if_neg hp]
    cases dictLookup fs path <;> refine ⟨?_, ?_, ?_⟩ <;> simp [corsHeaders]
